import Mathlib

/-!
Shallow embedding of the core of the `postgres18-redis-benchmark` repository:
the query strategies (`QueryStrategy.js`), the resilience decorators
(`QueryDecorators.js`) and the performance monitor (`PerformanceMonitor.js`),
together with theorems settling the specification claims about them.

JavaScript numbers standing for ids, amounts, durations and timestamps are
modelled as `Nat`/`Int`; promise rejection is modelled with `Except`;
`JSON.stringify`/`JSON.parse` round-trips are treated as the identity (the
cache gateway is modelled as storing the deserialized record directly).
-/

namespace PgRedisBench

/-! ## Data model: rows and the dashboard record (`QueryStrategy.js`) -/

/-- One row of the customer-dashboard query result: the joined
customers/orders columns selected by `_getCustomerDashboardQuery`. -/
structure Row where
  id : Int
  name : String
  email : String
  order_id : Int
  total_cents : Int
  status : String
  created_at : Nat
deriving DecidableEq, Repr

structure CustomerSummary where
  id : Int
  name : String
  email : String
deriving DecidableEq, Repr

structure OrderSummary where
  id : Int
  total_cents : Int
  status : String
  created_at : Nat
deriving DecidableEq, Repr

/-- The dashboard read-model: `{ customer, orders }` as built by
`_formatCustomerDashboard`. -/
structure DashboardRecord where
  customer : Option CustomerSummary
  orders : List OrderSummary
deriving DecidableEq, Repr

/-- `RedisCacheStrategy._formatCustomerDashboard` (identical in the
Direct-PostgreSQL and Hybrid strategies): empty row list yields
`{ customer: null, orders: [] }`, otherwise the customer columns of the
first row and one order summary per row. -/
def formatCustomerDashboard (rows : List Row) : DashboardRecord :=
  match rows with
  | [] => { customer := none, orders := [] }
  | r0 :: _ =>
    { customer := some { id := r0.id, name := r0.name, email := r0.email }
    , orders := rows.map (fun r =>
        { id := r.order_id, total_cents := r.total_cents
        , status := r.status, created_at := r.created_at }) }

/-! ## `RedisCacheStrategy.getCustomerDashboard` (Cache-Aside)

The method performs, in order: `redis.get`, then on a miss `pgPool`
query, then `redis.setex`, with **no** try/catch around any of the three
awaits (the `try/finally` only releases the pool client).  We model the
outcome of each gateway operation as an `Except` parameter and record
which gateway operations were performed. -/

instance {ε α : Type} [DecidableEq ε] [DecidableEq α] : DecidableEq (Except ε α) := fun
  | .ok a, .ok b =>
    if h : a = b then .isTrue (by rw [h])
    else .isFalse (by intro hh; cases hh; exact h rfl)
  | .ok _, .error _ => .isFalse (by intro h; cases h)
  | .error _, .ok _ => .isFalse (by intro h; cases h)
  | .error a, .error b =>
    if h : a = b then .isTrue (by rw [h])
    else .isFalse (by intro hh; cases hh; exact h rfl)

inductive GatewayOp where
  | cacheGet
  | storeQuery
  | cacheSet
deriving DecidableEq, Repr

inductive FetchErr where
  /-- a rejected promise coming from the Redis client (`get` or `setex`) -/
  | cacheFailure (code : Nat)
  /-- a rejected promise coming from the PostgreSQL client -/
  | storeFailure (code : Nat)
deriving DecidableEq, Repr

/-- Result of one `RedisCacheStrategy.getCustomerDashboard` call: the
settled promise, the gateway operations performed, and the updated
`cacheHits`/`cacheMisses` counters. -/
structure RcsResult where
  result : Except FetchErr DashboardRecord
  ops : List GatewayOp
  cacheHits : Nat
  cacheMisses : Nat
deriving DecidableEq, Repr

/-- `RedisCacheStrategy.getCustomerDashboard`, with the three awaited
gateway outcomes passed in: `cacheGetRes` (`redis.get`, `none` = null =
miss), `storeQueryRes` (`client.query` row list) and `cacheSetRes`
(`redis.setex`).  A rejection of any of the three awaits propagates out
of the method, exactly as in the source (there is no catch). -/
def rcs_getCustomerDashboard (cacheGetRes : Except Nat (Option DashboardRecord))
    (storeQueryRes : Except Nat (List Row)) (cacheSetRes : Except Nat Unit)
    (cacheHits cacheMisses : Nat) : RcsResult :=
  match cacheGetRes with
  | .error e => ⟨.error (.cacheFailure e), [.cacheGet], cacheHits, cacheMisses⟩
  | .ok (some cached) => ⟨.ok cached, [.cacheGet], cacheHits + 1, cacheMisses⟩
  | .ok none =>
    match storeQueryRes with
    | .error e =>
        ⟨.error (.storeFailure e), [.cacheGet, .storeQuery], cacheHits, cacheMisses + 1⟩
    | .ok rows =>
      let data := formatCustomerDashboard rows
      match cacheSetRes with
      | .error e =>
          ⟨.error (.cacheFailure e), [.cacheGet, .storeQuery, .cacheSet],
            cacheHits, cacheMisses + 1⟩
      | .ok _ =>
          ⟨.ok data, [.cacheGet, .storeQuery, .cacheSet], cacheHits, cacheMisses + 1⟩

/-! ## `HybridStrategy.getCustomerDashboard`

The strategy keeps an `accessCount` map (default 0 via `|| 0`),
increments the entry for the requested id, and routes to the Redis
cache-aside path when the post-increment count reaches
`hotDataThreshold` (`count >= this.hotDataThreshold`), otherwise to the
direct PostgreSQL path. -/

inductive HybridPath where
  | direct
  | cacheAside
deriving DecidableEq, Repr

/-- The `accessCount` map as a total function with default 0
(`this.accessCount.get(id) || 0`). -/
def hybridStep (m : Nat → Nat) (id : Nat) : Nat → Nat :=
  fun j => if j = id then m id + 1 else m j

/-- One `HybridStrategy.getCustomerDashboard` call: the updated access
map and the path taken for this call. -/
def hybridCall (hotDataThreshold : Nat) (m : Nat → Nat) (id : Nat) :
    (Nat → Nat) × HybridPath :=
  let count := m id + 1
  (hybridStep m id, if hotDataThreshold ≤ count then .cacheAside else .direct)

/-- The access map after a history of calls, starting from the freshly
constructed strategy (empty map). -/
def hybridRun (history : List Nat) : Nat → Nat :=
  history.foldl hybridStep (fun _ => 0)

/-! ## `MetricsDecorator` (`QueryDecorators.js`)

`getCustomerDashboard` increments `totalQueries`, then on success of the
inner call increments `successfulQueries`, adds the measured duration to
`totalDuration` and pushes it onto `latencies`; on failure it only
increments `failedQueries` and re-throws. -/

structure Metrics where
  totalQueries : Nat
  successfulQueries : Nat
  failedQueries : Nat
  totalDuration : Nat
  latencies : List Nat
deriving DecidableEq, Repr

def Metrics.init : Metrics := ⟨0, 0, 0, 0, []⟩

/-- One call through `MetricsDecorator.getCustomerDashboard`.
`outcome = some d` models the inner call resolving with measured
duration `d`; `outcome = none` models the inner call rejecting (the
error is re-thrown and no duration is used). -/
def metricsCall (m : Metrics) (outcome : Option Nat) : Metrics :=
  let m1 := { m with totalQueries := m.totalQueries + 1 }
  match outcome with
  | some d =>
    { m1 with successfulQueries := m1.successfulQueries + 1
            , totalDuration := m1.totalDuration + d
            , latencies := m1.latencies ++ [d] }
  | none => { m1 with failedQueries := m1.failedQueries + 1 }

/-- The metrics state after a sequence of calls on a fresh decorator. -/
def metricsRun (outcomes : List (Option Nat)) : Metrics :=
  outcomes.foldl metricsCall .init

/-! ## Percentiles (`getMetrics` / `getSummary`)

Both `MetricsDecorator.getMetrics` and `PerformanceMonitor.getSummary`
sort a copy of the samples ascending (`.sort((a, b) => a - b)`) and
index it at `Math.floor(length * p)` for `p ∈ {0.5, 0.95, 0.99}`; we
model the ascending numeric sort with `insertionSort (· ≤ ·)` (any
correct ascending sort of naturals yields the same list) and the floored
index with exact arithmetic `length * p / 100`. -/

def sortAsc (l : List Nat) : List Nat := l.insertionSort (· ≤ ·)

/-- `Math.floor(len * (p / 100))` for the percentile `p` (50, 95, 99). -/
def pctIdx (len p : Nat) : Nat := len * p / 100

/-- The object returned by `MetricsDecorator.getMetrics`: the raw
tallies spread in, plus derived average, percentiles and success rate.
(`toFixed(2)` string formatting on the two rates is dropped; the exact
rational value is kept.)  `latencies[i] || 0` is `getD i 0`: out of
range or a 0 sample both give 0. -/
structure MetricsReport where
  totalQueries : Nat
  successfulQueries : Nat
  failedQueries : Nat
  totalDuration : Nat
  latencies : List Nat
  averageLatency : ℚ
  p50 : Nat
  p95 : Nat
  p99 : Nat
  successRate : ℚ
deriving DecidableEq, Repr

def Metrics.getMetrics (m : Metrics) : MetricsReport :=
  let sorted := sortAsc m.latencies
  { totalQueries := m.totalQueries
  , successfulQueries := m.successfulQueries
  , failedQueries := m.failedQueries
  , totalDuration := m.totalDuration
  , latencies := m.latencies
  , averageLatency :=
      if 0 < m.totalQueries then (m.totalDuration : ℚ) / (m.totalQueries : ℚ) else 0
  , p50 := (sorted.getD (pctIdx sorted.length 50) 0)
  , p95 := (sorted.getD (pctIdx sorted.length 95) 0)
  , p99 := (sorted.getD (pctIdx sorted.length 99) 0)
  , successRate :=
      if 0 < m.totalQueries then
        ((m.successfulQueries : ℚ) / (m.totalQueries : ℚ)) * 100
      else 0 }

/-! ## `RetryDecorator` (`QueryDecorators.js`)

The loop runs attempts `0 .. maxRetries`.  A successful inner call
returns its value.  On an error, the original error is re-thrown
immediately when `error.name === 'ValidationError'`; when the attempt
index equals `maxRetries` the loop breaks and a `QueryError` wrapping
the last error is thrown; otherwise the loop sleeps (irrelevant to the
result) and retries.  The inner call is modelled as a function of the
attempt index; the result carries the number of inner calls made. -/

inductive InnerErr where
  /-- an error whose `name` is `'ValidationError'` -/
  | validation
  /-- any other error, tagged with a code for identity -/
  | db (code : Nat)
deriving DecidableEq, Repr

/-- `error.name === 'ValidationError'` -/
def InnerErr.nameIsValidation : InnerErr → Bool
  | .validation => true
  | .db _ => false

inductive RetryErr where
  /-- the original error re-thrown unchanged (the ValidationError path) -/
  | raised (e : InnerErr)
  /-- `new QueryError('Failed after ... attempts', null, lastError)` -/
  | queryError (lastError : InnerErr)
deriving DecidableEq, Repr

/-- The retry loop from attempt `attempt` with `left` further attempts
allowed after this one (so `left = maxRetries - attempt` along the run).
Returns the settled result and the number of inner calls made. -/
def retryGo (inner : Nat → Except InnerErr Nat) :
    Nat → Nat → Except RetryErr Nat × Nat
  | attempt, left =>
    match inner attempt with
    | .ok v => (.ok v, 1)
    | .error e =>
      if e.nameIsValidation then (.error (.raised e), 1)
      else
        match left with
        | 0 => (.error (.queryError e), 1)
        | l + 1 =>
          let r := retryGo inner (attempt + 1) l
          (r.1, r.2 + 1)

/-- `RetryDecorator.getCustomerDashboard` with parameter `maxRetries`:
the loop starts at attempt 0 with `maxRetries` retries remaining. -/
def retryExec (inner : Nat → Except InnerErr Nat) (maxRetries : Nat) :
    Except RetryErr Nat × Nat :=
  retryGo inner 0 maxRetries

/-! ## `CircuitBreakerDecorator` (`QueryDecorators.js`)

Fields `threshold`, `resetTimeout`, `failureCount`, `state`
(`'CLOSED' | 'OPEN' | 'HALF_OPEN'`) and `nextAttempt` (initially
`null`).  On a call: when OPEN and `Date.now() < this.nextAttempt` an
immediate "circuit open" error is thrown without invoking the inner
layer (`null` compares as 0); when OPEN otherwise the state first moves
to HALF_OPEN; then the inner call runs and `_onSuccess`/`_onFailure`
updates the state. -/

inductive CBState where
  | closed
  | opened
  | halfOpen
deriving DecidableEq, Repr

structure CB where
  threshold : Nat
  resetTimeout : Nat
  failureCount : Nat
  state : CBState
  nextAttempt : Option Nat
deriving DecidableEq, Repr

/-- The freshly constructed decorator: CLOSED, zero failures,
`nextAttempt = null`. -/
def CB.init (threshold resetTimeout : Nat) : CB :=
  ⟨threshold, resetTimeout, 0, .closed, none⟩

/-- `_onSuccess`: reset the failure counter; HALF_OPEN closes. -/
def cbOnSuccess (cb : CB) : CB :=
  let cb1 := { cb with failureCount := 0 }
  if cb1.state = .halfOpen then { cb1 with state := .closed } else cb1

/-- `_onFailure`: count the failure; reaching the threshold opens the
breaker and sets `nextAttempt = Date.now() + resetTimeout`. -/
def cbOnFailure (cb : CB) (now : Nat) : CB :=
  let cb1 := { cb with failureCount := cb.failureCount + 1 }
  if cb1.threshold ≤ cb1.failureCount then
    { cb1 with state := .opened, nextAttempt := some (now + cb1.resetTimeout) }
  else cb1

inductive CbErr where
  /-- `'Circuit breaker is OPEN - service unavailable'` -/
  | circuitOpen
  /-- the inner layer's error, re-thrown -/
  | innerFailure (code : Nat)
deriving DecidableEq, Repr

/-- One `CircuitBreakerDecorator.getCustomerDashboard` call at time
`now` whose inner call, if made, settles as `innerRes`.  Returns the
updated breaker, whether the inner layer was invoked, and the settled
result. -/
def cbCall (cb : CB) (now : Nat) (innerRes : Except Nat Nat) :
    CB × Bool × Except CbErr Nat :=
  let run : CB → CB × Bool × Except CbErr Nat := fun cb1 =>
    match innerRes with
    | .ok v => (cbOnSuccess cb1, true, .ok v)
    | .error e => (cbOnFailure cb1 now, true, .error (.innerFailure e))
  match cb.state with
  | .opened =>
    if now < cb.nextAttempt.getD 0 then (cb, false, .error .circuitOpen)
    else run { cb with state := .halfOpen }
  | _ => run cb

/-- The breaker state after a sequence of calls `(now, innerRes)` on a
fresh decorator. -/
def cbRun (threshold resetTimeout : Nat) (calls : List (Nat × Except Nat Nat)) : CB :=
  calls.foldl (fun cb c => (cbCall cb c.1 c.2).1) (CB.init threshold resetTimeout)

/-! ## `PerformanceMonitor` (`PerformanceMonitor.js`)

`recordQuery` pushes `{...queryInfo, timestamp}` onto
`metrics.queries`, then `_checkPerformance` pushes/notifies a
SLOW_QUERY alert when `duration > 1000` and a QUERY_ERROR alert when
`queryInfo.error` is set, then the QUERY_EXECUTED event is notified.
`notify` iterates the subscriber list calling `observer.update(event)`
with **no** try/catch, so an observer that throws aborts the loop and
the exception propagates out of `recordQuery`.  An observer is modelled
by an id and whether its `update` throws; a notification is recorded as
`(observer id, notice kind)` in invocation order, plus a flag telling
whether the whole call threw. -/

/-- A recorded query: the fields of `queryInfo` the monitor reads
(`duration`, `error`), plus the appended `timestamp`. -/
structure QRec where
  duration : Nat
  hasError : Bool
  timestamp : Nat
deriving DecidableEq, Repr

inductive AlertKind where
  | slowQuery
  | queryErr
deriving DecidableEq, Repr

structure Alert where
  kind : AlertKind
  timestamp : Nat
deriving DecidableEq, Repr

/-- A subscribed observer: an identity and whether its `update` throws
(on every event). -/
structure Obs where
  id : Nat
  raises : Bool
deriving DecidableEq, Repr

/-- The kind of payload passed to `observer.update`. -/
inductive Notice where
  | alertSlow
  | alertQueryErr
  | queryExecuted
deriving DecidableEq, Repr

structure Mon where
  observers : List Obs
  queries : List QRec
  alerts : List Alert
deriving DecidableEq, Repr

/-- `PerformanceMonitor.notify`: call `update` on each observer in
subscription order; a throwing observer is still invoked but stops the
loop and makes `notify` itself throw. -/
def notifyObs : List Obs → Notice → List (Nat × Notice) × Bool
  | [], _ => ([], false)
  | o :: rest, k =>
    if o.raises then ([(o.id, k)], true)
    else
      let r := notifyObs rest k
      ((o.id, k) :: r.1, r.2)

/-- `PerformanceMonitor.recordQuery` for a query with the given
`duration` and error flag, at time `now`: returns the updated monitor,
the `update` invocations made (in order), and whether the call threw
(an observer exception propagating out). -/
def recordQuery (m : Mon) (duration : Nat) (hasError : Bool) (now : Nat) :
    Mon × List (Nat × Notice) × Bool :=
  let m1 : Mon := { m with queries := m.queries ++ [⟨duration, hasError, now⟩] }
  if 1000 < duration then
    let m2 : Mon := { m1 with alerts := m1.alerts ++ [⟨.slowQuery, now⟩] }
    let r1 := notifyObs m.observers .alertSlow
    if r1.2 then (m2, r1.1, true)
    else if hasError then
      let m3 : Mon := { m2 with alerts := m2.alerts ++ [⟨.queryErr, now⟩] }
      let r2 := notifyObs m.observers .alertQueryErr
      if r2.2 then (m3, r1.1 ++ r2.1, true)
      else
        let r3 := notifyObs m.observers .queryExecuted
        (m3, r1.1 ++ r2.1 ++ r3.1, r3.2)
    else
      let r3 := notifyObs m.observers .queryExecuted
      (m2, r1.1 ++ r3.1, r3.2)
  else if hasError then
    let m3 : Mon := { m1 with alerts := m1.alerts ++ [⟨.queryErr, now⟩] }
    let r2 := notifyObs m.observers .alertQueryErr
    if r2.2 then (m3, r2.1, true)
    else
      let r3 := notifyObs m.observers .queryExecuted
      (m3, r2.1 ++ r3.1, r3.2)
  else
    let r3 := notifyObs m.observers .queryExecuted
    (m1, r3.1, r3.2)

/-- The object returned by `PerformanceMonitor.getSummary` when the
history is non-empty.  (`toFixed(2)` formatting on the average is
dropped; the exact rational value is kept.)  Unlike the Metrics
decorator there is no `|| 0` on the percentile lookups, so they are
`Option`-valued here. -/
structure MonSummary where
  totalQueries : Nat
  avgDuration : ℚ
  p50 : Option Nat
  p95 : Option Nat
  p99 : Option Nat
  alertCount : Nat
deriving DecidableEq, Repr

/-- `PerformanceMonitor.getSummary`: `null` on an empty history,
otherwise counts, average and nearest-rank percentiles over the sorted
durations. -/
def Mon.getSummary (m : Mon) : Option MonSummary :=
  if m.queries.length = 0 then none
  else
    let durations := m.queries.map QRec.duration
    let sorted := sortAsc durations
    some { totalQueries := m.queries.length
         , avgDuration := (durations.sum : ℚ) / (durations.length : ℚ)
         , p50 := sorted[pctIdx sorted.length 50]?
         , p95 := sorted[pctIdx sorted.length 95]?
         , p99 := sorted[pctIdx sorted.length 99]?
         , alertCount := m.alerts.length }

/-! ## Claim C9: null customer iff empty row list -/

/-- C9: for every row list returned by the store, the record built by
`_formatCustomerDashboard` has `customer = null` exactly when the row
list is empty, and a null customer implies an empty order list. -/
theorem c9_null_customer_iff_empty_rows (rows : List Row) :
    ((formatCustomerDashboard rows).customer = none ↔ rows = []) ∧
    ((formatCustomerDashboard rows).customer = none →
      (formatCustomerDashboard rows).orders = []) := by
  cases rows with
  | nil => simp [formatCustomerDashboard]
  | cons r rs => simp [formatCustomerDashboard]

/-- C9 witness: at the empty row list the formatter yields the
null-customer record with no orders. -/
theorem c9_null_customer_iff_empty_rows_witness :
    (formatCustomerDashboard []).customer = none ∧
    (formatCustomerDashboard []).orders = [] :=
  ⟨(c9_null_customer_iff_empty_rows []).1.mpr rfl,
    (c9_null_customer_iff_empty_rows []).2
      ((c9_null_customer_iff_empty_rows []).1.mpr rfl)⟩

/-! ## Claim C1: cache-layer failures in Cache-Aside -/

/-- C1 counterexample: a failed `redis.get` is **not** treated as a
cache-miss — the fetch fails with the cache error and the store is
never consulted, even though the store read would have succeeded; and a
failed `redis.setex` after a successful store read also fails the
fetch instead of returning the store result. -/
theorem c1_cache_failure_counterexample :
    (rcs_getCustomerDashboard (.error 7) (.ok []) (.ok ()) 0 0).result
        = .error (.cacheFailure 7) ∧
    GatewayOp.storeQuery ∉
      (rcs_getCustomerDashboard (.error 7) (.ok []) (.ok ()) 0 0).ops ∧
    (rcs_getCustomerDashboard (.ok none) (.ok []) (.error 9) 0 0).result
        = .error (.cacheFailure 9) := by
  decide

/-- C1 amended: cache-layer failures are fatal to the Cache-Aside
fetch.  A rejected `redis.get` propagates as the fetch failure and the
store is never consulted (the only gateway operation performed is the
cache get); a rejected `redis.setex` after a successful store read
propagates as the fetch failure instead of the store result being
returned. -/
theorem c1_cache_failure_is_fatal (e e2 h mi : Nat)
    (sq : Except Nat (List Row)) (cs : Except Nat Unit) (rows : List Row) :
    rcs_getCustomerDashboard (.error e) sq cs h mi
        = ⟨.error (.cacheFailure e), [.cacheGet], h, mi⟩ ∧
    rcs_getCustomerDashboard (.ok none) (.ok rows) (.error e2) h mi
        = ⟨.error (.cacheFailure e2), [.cacheGet, .storeQuery, .cacheSet],
            h, mi + 1⟩ :=
  ⟨rfl, rfl⟩

/-! ## Claim C7: Hybrid hot/cold classification -/

/-- After any call history, the access counter of an id equals the
number of calls for that id in the history. -/
theorem hybridRun_count_eq (history : List Nat) (m : Nat → Nat) (id : Nat) :
    history.foldl hybridStep m id = m id + history.count id := by
  induction history generalizing m with
  | nil => simp
  | cons a l ih =>
    simp only [List.foldl_cons, ih, List.count_cons]
    by_cases h : id = a
    · subst h; simp [hybridStep]; omega
    · have h' : ¬(a = id) := fun hh => h hh.symm
      simp [hybridStep, h, h']

/-- C7: after any call history, the next call for a given id takes the
cache-aside path exactly when it is the `k`-th call for that id with
`k ≥ hotDataThreshold` (classification by the post-increment count), so
calls `1 .. T-1` take the direct-store path and call `T` and every
later call take the cache path. -/
theorem c7_hybrid_threshold (T : Nat) (history : List Nat) (id : Nat) :
    ((hybridCall T (hybridRun history) id).2 = .cacheAside ↔
      T ≤ history.count id + 1) ∧
    hybridRun history id = history.count id := by
  have hcount : hybridRun history id = history.count id := by
    simpa using hybridRun_count_eq history (fun _ => 0) id
  refine ⟨?_, hcount⟩
  simp only [hybridCall, hcount]
  split
  · simp_all
  · simp_all

/-! ## Claim C2: Metrics decorator latency recording -/

/-- C2 counterexample: after a single call whose inner fetch fails, the
decorator has tallied one call but recorded **zero** latency samples —
the latency list does not have one entry per call. -/
theorem c2_latency_counterexample :
    (metricsRun [none]).totalQueries = 1 ∧
    (metricsRun [none]).failedQueries = 1 ∧
    (metricsRun [none]).latencies.length = 0 := by
  decide

/-- Folding `metricsCall` from any starting state adds one tallied call
per outcome, but a latency sample (and duration) only per success. -/
theorem metricsRun_fold (outcomes : List (Option Nat)) (m : Metrics) :
    outcomes.foldl metricsCall m =
      { totalQueries := m.totalQueries + outcomes.length
      , successfulQueries :=
          m.successfulQueries + (outcomes.filterMap id).length
      , failedQueries :=
          m.failedQueries + (outcomes.filter (·.isNone)).length
      , totalDuration := m.totalDuration + (outcomes.filterMap id).sum
      , latencies := m.latencies ++ outcomes.filterMap id } := by
  induction outcomes generalizing m with
  | nil => simp
  | cons o l ih =>
    cases o with
    | some d =>
      simp [List.foldl_cons, ih, metricsCall, Metrics.mk.injEq,
        List.filterMap_cons, List.filter_cons]
      omega
    | none =>
      simp [List.foldl_cons, ih, metricsCall, Metrics.mk.injEq,
        List.filterMap_cons, List.filter_cons]
      omega

/-- C2 amended: the Metrics decorator tallies every call in
`totalQueries` and in exactly one of the success/failure counters, but
records a latency sample (and adds the duration) **only for successful
calls**: after any sequence of calls the latency list is exactly the
sequence of successful-call durations, so it has one entry per
successful call, not per call. -/
theorem c2_latency_only_on_success (outcomes : List (Option Nat)) :
    (metricsRun outcomes).totalQueries = outcomes.length ∧
    (metricsRun outcomes).successfulQueries = (outcomes.filterMap id).length ∧
    (metricsRun outcomes).failedQueries =
      (outcomes.filter (·.isNone)).length ∧
    (metricsRun outcomes).totalDuration = (outcomes.filterMap id).sum ∧
    (metricsRun outcomes).latencies = outcomes.filterMap id := by
  rw [metricsRun, metricsRun_fold]
  simp [Metrics.init]

/-! ## Claim C10: `getSummary` on an empty vs non-empty history -/

/-- C10: `getSummary` returns `null` exactly when the recorded history
is empty; on a non-empty history it returns a summary whose
`totalQueries` is the number of recorded events. -/
theorem c10_summary_empty_null (m : Mon) :
    (m.getSummary = none ↔ m.queries = []) ∧
    (m.queries ≠ [] →
      m.getSummary.map MonSummary.totalQueries = some m.queries.length) := by
  by_cases h : m.queries.length = 0
  · have h' : m.queries = [] := List.length_eq_zero.mp h
    constructor
    · simp [Mon.getSummary, h]
      exact h'
    · intro hne; exact absurd h' hne
  · have h' : m.queries ≠ [] := fun hh => h (by simp [hh])
    constructor
    · simp [Mon.getSummary, h]
      exact h'
    · intro _
      simp [Mon.getSummary, h]

/-- C10 witness: a monitor with one recorded event has a summary with
`totalQueries = 1`; discharges the non-empty-history hypothesis at a
concrete monitor. -/
theorem c10_summary_empty_null_witness :
    (⟨[], [⟨5, false, 0⟩], []⟩ : Mon).queries ≠ [] ∧
    (Mon.getSummary ⟨[], [⟨5, false, 0⟩], []⟩).map MonSummary.totalQueries
      = some 1 :=
  ⟨by decide, (c10_summary_empty_null ⟨[], [⟨5, false, 0⟩], []⟩).2 (by decide)⟩

/-! ## Claim C3: observer notification -/

/-- C3 counterexample: two subscribed observers, the first of which
throws in `update`.  One `recordQuery` invokes only the first observer
— the second is never notified, because `notify` has no per-observer
error isolation and the exception aborts the loop — although the
monitor's history does still contain the recorded event. -/
theorem c3_notify_counterexample :
    (recordQuery ⟨[⟨1, true⟩, ⟨2, false⟩], [], []⟩ 10 false 0).2.1
        = [(1, Notice.queryExecuted)] ∧
    ((2 : Nat), Notice.queryExecuted) ∉
      (recordQuery ⟨[⟨1, true⟩, ⟨2, false⟩], [], []⟩ 10 false 0).2.1 ∧
    (recordQuery ⟨[⟨1, true⟩, ⟨2, false⟩], [], []⟩ 10 false 0).2.2 = true ∧
    (recordQuery ⟨[⟨1, true⟩, ⟨2, false⟩], [], []⟩ 10 false 0).1.queries
        = [⟨10, false, 0⟩] := by
  decide

/-- C3 amended: with two subscribed observers, one `recordQuery` of a
normal event (not slow, no error) notifies both observers in
subscription order when neither throws; but when the **first**
observer's `update` throws, the exception aborts the notification loop
— the second observer is *not* notified and `recordQuery` itself
throws — while the monitor's internal history does already contain the
recorded event. -/
theorem c3_notify_order_no_isolation (m : Mon) (o1 o2 : Obs) (d now : Nat)
    (hobs : m.observers = [o1, o2]) (hd : d ≤ 1000) :
    ((o1.raises = false ∧ o2.raises = false) →
      recordQuery m d false now =
        ({ m with queries := m.queries ++ [⟨d, false, now⟩] },
          [(o1.id, .queryExecuted), (o2.id, .queryExecuted)], false)) ∧
    (o1.raises = true →
      recordQuery m d false now =
        ({ m with queries := m.queries ++ [⟨d, false, now⟩] },
          [(o1.id, .queryExecuted)], true)) := by
  have hnd : ¬(1000 < d) := Nat.not_lt.mpr hd
  constructor
  · rintro ⟨h1, h2⟩
    simp [recordQuery, hnd, hobs, notifyObs, h1, h2]
  · intro h1
    simp [recordQuery, hnd, hobs, notifyObs, h1]

/-- C3 witness: the amended claim applied at two concrete monitors, one
with two well-behaved observers and one whose first observer throws. -/
theorem c3_notify_order_no_isolation_witness :
    recordQuery ⟨[⟨1, false⟩, ⟨2, false⟩], [], []⟩ 10 false 0
      = (⟨[⟨1, false⟩, ⟨2, false⟩], [⟨10, false, 0⟩], []⟩,
          [(1, .queryExecuted), (2, .queryExecuted)], false) ∧
    recordQuery ⟨[⟨1, true⟩, ⟨2, false⟩], [], []⟩ 10 false 0
      = (⟨[⟨1, true⟩, ⟨2, false⟩], [⟨10, false, 0⟩], []⟩,
          [(1, .queryExecuted)], true) := by
  constructor
  · have h := (c3_notify_order_no_isolation ⟨[⟨1, false⟩, ⟨2, false⟩], [], []⟩
      ⟨1, false⟩ ⟨2, false⟩ 10 0 rfl (by decide)).1 ⟨rfl, rfl⟩
    simpa using h
  · have h := (c3_notify_order_no_isolation ⟨[⟨1, true⟩, ⟨2, false⟩], [], []⟩
      ⟨1, true⟩ ⟨2, false⟩ 10 0 rfl (by decide)).2 rfl
    simpa using h

/-! ## Circuit breaker reachability invariant (shared by C4 and C5) -/

/-- Invariant maintained by every call on a breaker constructed with the
given parameters: the parameters are never mutated, and whenever the
breaker is OPEN the failure count has reached the threshold and
`nextAttempt` has been set. -/
def cbInv (threshold resetTimeout : Nat) (cb : CB) : Prop :=
  cb.threshold = threshold ∧ cb.resetTimeout = resetTimeout ∧
    (cb.state = .opened →
      threshold ≤ cb.failureCount ∧ cb.nextAttempt ≠ none)

theorem cbCall_preserves_inv (th rt : Nat) (cb : CB) (now : Nat)
    (res : Except Nat Nat) (h : cbInv th rt cb) :
    cbInv th rt (cbCall cb now res).1 := by
  obtain ⟨cth, crt, cfc, cst, cna⟩ := cb
  obtain ⟨hth, hrt, hop⟩ := h
  simp only at hth hrt hop
  subst hth hrt
  cases cst with
  | closed =>
    cases res with
    | ok v => simp [cbCall, cbOnSuccess, cbInv]
    | error e =>
      simp only [cbCall, cbOnFailure, cbInv]
      split
      · simp_all
      · simp_all
  | halfOpen =>
    cases res with
    | ok v => simp [cbCall, cbOnSuccess, cbInv]
    | error e =>
      simp only [cbCall, cbOnFailure, cbInv]
      split
      · simp_all
      · simp_all
  | opened =>
    by_cases hlt : now < cna.getD 0
    · simpa [cbCall, cbInv, hlt] using hop
    · cases res with
      | ok v => simp [cbCall, cbOnSuccess, cbInv, hlt]
      | error e =>
        simp only [cbCall, cbOnFailure, cbInv, hlt, if_false]
        split
        · simp_all
        · simp_all

theorem cbRun_inv (th rt : Nat) (calls : List (Nat × Except Nat Nat)) :
    cbInv th rt (cbRun th rt calls) := by
  rw [cbRun]
  generalize hcb : CB.init th rt = cb0
  have h0 : cbInv th rt cb0 := by
    rw [← hcb]
    exact ⟨rfl, rfl, by intro h; simp [CB.init] at h⟩
  clear hcb
  induction calls generalizing cb0 with
  | nil => exact h0
  | cons c l ih =>
    exact ih _ (cbCall_preserves_inv th rt cb0 c.1 c.2 h0)

/-! ## Claim C4: `nextAttempt` set iff OPEN -/

/-- C4 counterexample: `nextAttempt` is never cleared.  With threshold 1
and resetTimeout 5, one failing call at time 0 opens the breaker and
sets `nextAttempt = 5`; a successful trial call at time 5 closes the
breaker again, yet `nextAttempt` is still set — a CLOSED breaker with a
non-null `nextAttempt`, refuting the "only if" direction. -/
theorem c4_openUntil_counterexample :
    (cbRun 1 5 [(0, .error 0), (5, .ok 0)]).state = CBState.closed ∧
    (cbRun 1 5 [(0, .error 0), (5, .ok 0)]).nextAttempt = some 5 := by
  decide

/-- C4 amended: for every reachable breaker state, OPEN implies
`nextAttempt` is set; the converse does not hold, since `nextAttempt`
is never cleared on leaving OPEN and so can remain set while CLOSED (or
HALF_OPEN). -/
theorem c4_open_implies_openUntil_set (th rt : Nat)
    (calls : List (Nat × Except Nat Nat))
    (h : (cbRun th rt calls).state = .opened) :
    (cbRun th rt calls).nextAttempt ≠ none :=
  ((cbRun_inv th rt calls).2.2 h).2

/-- C4 witness: a breaker with threshold 1 opened by one failing call
has a non-null `nextAttempt`. -/
theorem c4_open_implies_openUntil_set_witness :
    (cbRun 1 5 [(0, .error 0)]).state = CBState.opened ∧
    (cbRun 1 5 [(0, .error 0)]).nextAttempt ≠ none :=
  ⟨by decide, c4_open_implies_openUntil_set 1 5 [(0, .error 0)] (by decide)⟩

/-! ## Claim C5: the circuit-breaker state machine -/

/-- C5: on every reachable breaker state the call behaviour is the
specified state machine.  CLOSED: the call passes through to the inner
layer; success resets the consecutive-failure count to 0; a failure
increments it, staying CLOSED below the threshold and transitioning to
OPEN with `nextAttempt = now + resetTimeout` on reaching it.  OPEN
strictly before `nextAttempt`: the call fails immediately with the
circuit-open error, the inner layer is not invoked, and the breaker is
unchanged.  OPEN at or after `nextAttempt`: the call is the HALF_OPEN
trial and proceeds to the inner layer; trial success transitions to
CLOSED with the failure counter reset, trial failure transitions back
to OPEN with a freshly computed `nextAttempt`. -/
theorem c5_state_machine (th rt now : Nat)
    (calls : List (Nat × Except Nat Nat)) (cb : CB)
    (hcb : cb = cbRun th rt calls) (innerRes : Except Nat Nat) :
    (cb.state = .closed →
      (∀ v, innerRes = .ok v →
        cbCall cb now innerRes = ({ cb with failureCount := 0 }, true, .ok v)) ∧
      (∀ e, innerRes = .error e → cb.failureCount + 1 < cb.threshold →
        cbCall cb now innerRes =
          ({ cb with failureCount := cb.failureCount + 1 }, true,
            .error (.innerFailure e))) ∧
      (∀ e, innerRes = .error e → cb.threshold ≤ cb.failureCount + 1 →
        cbCall cb now innerRes =
          ({ cb with
              failureCount := cb.failureCount + 1,
              state := .opened,
              nextAttempt := some (now + cb.resetTimeout) }, true,
            .error (.innerFailure e)))) ∧
    (cb.state = .opened → now < cb.nextAttempt.getD 0 →
      cbCall cb now innerRes = (cb, false, .error .circuitOpen)) ∧
    (cb.state = .opened → cb.nextAttempt.getD 0 ≤ now →
      (∀ v, innerRes = .ok v →
        cbCall cb now innerRes =
          ({ cb with state := .closed, failureCount := 0 }, true, .ok v)) ∧
      (∀ e, innerRes = .error e →
        cbCall cb now innerRes =
          ({ cb with
              state := .opened,
              failureCount := cb.failureCount + 1,
              nextAttempt := some (now + cb.resetTimeout) }, true,
            .error (.innerFailure e)))) := by
  have hinv : cbInv th rt cb := hcb ▸ cbRun_inv th rt calls
  clear hcb
  obtain ⟨cth, crt, cfc, cst, cna⟩ := cb
  obtain ⟨hth, hrt, hop⟩ := hinv
  simp only at hth hrt hop
  refine ⟨?_, ?_, ?_⟩
  · intro hclosed
    simp only at hclosed
    subst hclosed
    refine ⟨?_, ?_, ?_⟩
    · rintro v rfl
      simp [cbCall, cbOnSuccess]
    · rintro e rfl hlt
      simp only at hlt
      simp [cbCall, cbOnFailure]
      omega
    · rintro e rfl hge
      simp only at hge
      simp [cbCall, cbOnFailure]
      omega
  · intro hopen hlt
    simp only at hopen hlt
    subst hopen
    simp [cbCall, hlt]
  · intro hopen hge
    simp only at hopen hge
    subst hopen
    obtain ⟨hth', _⟩ := hop rfl
    have hnl : ¬(now < cna.getD 0) := Nat.not_lt.mpr hge
    refine ⟨?_, ?_⟩
    · rintro v rfl
      simp [cbCall, hnl, cbOnSuccess]
    · rintro e rfl
      simp [cbCall, hnl, cbOnFailure]
      omega

/-- C5 witness: the state-machine theorem applied at concrete reachable
breakers, exercising every transition: CLOSED success, CLOSED failure
below / reaching the threshold, OPEN short-circuit, and the HALF_OPEN
trial succeeding and failing. -/
theorem c5_state_machine_witness :
    cbCall (cbRun 2 5 []) 0 (.ok 7)
      = (⟨2, 5, 0, .closed, none⟩, true, .ok 7) ∧
    cbCall (cbRun 2 5 []) 0 (.error 3)
      = (⟨2, 5, 1, .closed, none⟩, true, .error (.innerFailure 3)) ∧
    cbCall (cbRun 2 5 [(0, .error 0)]) 4 (.error 3)
      = (⟨2, 5, 2, .opened, some 9⟩, true, .error (.innerFailure 3)) ∧
    cbCall (cbRun 1 5 [(0, .error 0)]) 3 (.ok 7)
      = (⟨1, 5, 1, .opened, some 5⟩, false, .error .circuitOpen) ∧
    cbCall (cbRun 1 5 [(0, .error 0)]) 5 (.ok 7)
      = (⟨1, 5, 0, .closed, some 5⟩, true, .ok 7) ∧
    cbCall (cbRun 1 5 [(0, .error 0)]) 6 (.error 4)
      = (⟨1, 5, 2, .opened, some 11⟩, true, .error (.innerFailure 4)) := by
  refine ⟨?_, ?_, ?_, ?_, ?_, ?_⟩
  · exact ((c5_state_machine 2 5 0 [] _ rfl (.ok 7)).1 (by decide)).1 7 rfl
  · exact ((c5_state_machine 2 5 0 [] _ rfl (.error 3)).1
      (by decide)).2.1 3 rfl (by decide)
  · exact ((c5_state_machine 2 5 4 [(0, .error 0)] _ rfl (.error 3)).1
      (by decide)).2.2 3 rfl (by decide)
  · exact (c5_state_machine 1 5 3 [(0, .error 0)] _ rfl (.ok 7)).2.1
      (by decide) (by decide)
  · exact ((c5_state_machine 1 5 5 [(0, .error 0)] _ rfl (.ok 7)).2.2
      (by decide) (by decide)).1 7 rfl
  · exact ((c5_state_machine 1 5 6 [(0, .error 0)] _ rfl (.error 4)).2.2
      (by decide) (by decide)).2 4 rfl

/-! ## Claim C6: the Retry decorator -/

/-- If the first `k` attempts from `attempt` fail with retryable errors
and attempt `attempt + k` succeeds, the loop returns that success after
exactly `k + 1` inner calls (provided `k` does not exceed the remaining
retries). -/
theorem retryGo_succeeds (inner : Nat → Except InnerErr Nat) (k : Nat) :
    ∀ attempt left v, k ≤ left →
      (∀ i, i < k →
        ∃ e, inner (attempt + i) = .error e ∧ e.nameIsValidation = false) →
      inner (attempt + k) = .ok v →
      retryGo inner attempt left = (.ok v, k + 1) := by
  induction k with
  | zero =>
    intro attempt left v _ _ hok
    have hok' : inner attempt = .ok v := by simpa using hok
    rw [retryGo]
    simp [hok']
  | succ k ih =>
    intro attempt left v hle hfail hok
    obtain ⟨e, he, hev⟩ := hfail 0 (Nat.succ_pos k)
    have he' : inner attempt = .error e := by simpa using he
    obtain ⟨l, rfl⟩ : ∃ l, left = l + 1 := ⟨left - 1, by omega⟩
    rw [retryGo]
    simp only [he', hev, Bool.false_eq_true, if_false]
    have hrec : retryGo inner (attempt + 1) l = (.ok v, k + 1) := by
      refine ih (attempt + 1) l v (by omega) ?_ ?_
      · intro i hi
        obtain ⟨e2, he2, hev2⟩ := hfail (i + 1) (by omega)
        refine ⟨e2, ?_, hev2⟩
        rw [show attempt + 1 + i = attempt + (i + 1) by omega]
        exact he2
      · rw [show attempt + 1 + k = attempt + (k + 1) by omega]
        exact hok
    simp [hrec]

/-- If every attempt from `attempt` through `attempt + left` fails with
a retryable error, the loop throws a `QueryError` wrapping the last
error after exactly `left + 1` inner calls. -/
theorem retryGo_exhausts (inner : Nat → Except InnerErr Nat) :
    ∀ left attempt,
      (∀ i, i ≤ left →
        ∃ e, inner (attempt + i) = .error e ∧ e.nameIsValidation = false) →
      ∀ e, inner (attempt + left) = .error e →
      retryGo inner attempt left = (.error (.queryError e), left + 1) := by
  intro left
  induction left with
  | zero =>
    intro attempt hfail e he
    have he' : inner attempt = .error e := by simpa using he
    obtain ⟨e0, he0, hev0⟩ := hfail 0 (le_refl 0)
    have he0' : inner attempt = .error e0 := by simpa using he0
    rw [he'] at he0'
    obtain rfl : e0 = e := by
      injection he0' with h
      exact h.symm
    rw [retryGo]
    simp [he', hev0]
  | succ l ih =>
    intro attempt hfail e he
    obtain ⟨e0, he0, hev0⟩ := hfail 0 (by omega)
    have he0' : inner attempt = .error e0 := by simpa using he0
    rw [retryGo]
    simp only [he0', hev0, Bool.false_eq_true, if_false]
    have hrec : retryGo inner (attempt + 1) l
        = (.error (.queryError e), l + 1) := by
      refine ih (attempt + 1) ?_ e ?_
      · intro i hi
        obtain ⟨e2, he2, hev2⟩ := hfail (i + 1) (by omega)
        refine ⟨e2, ?_, hev2⟩
        rw [show attempt + 1 + i = attempt + (i + 1) by omega]
        exact he2
      · rw [show attempt + 1 + l = attempt + (l + 1) by omega]
        exact he
    simp [hrec]

/-- C6: the Retry decorator with parameter `maxRetries`.  An inner
strategy failing exactly `k < maxRetries` times with retryable errors
and then succeeding yields the success after exactly `k + 1` inner
calls; failing on all `maxRetries + 1` attempts yields a `QueryError`
wrapping the last underlying error after exactly `maxRetries + 1` inner
calls; and a `ValidationError` on the first attempt is re-raised
immediately after exactly one inner call. -/
theorem c6_retry_counts (inner : Nat → Except InnerErr Nat) (maxRetries : Nat) :
    (∀ k v, k < maxRetries →
      (∀ i, i < k → ∃ e, inner i = .error e ∧ e.nameIsValidation = false) →
      inner k = .ok v →
      retryExec inner maxRetries = (.ok v, k + 1)) ∧
    ((∀ i, i ≤ maxRetries →
        ∃ e, inner i = .error e ∧ e.nameIsValidation = false) →
      ∀ e, inner maxRetries = .error e →
      retryExec inner maxRetries = (.error (.queryError e), maxRetries + 1)) ∧
    (inner 0 = .error .validation →
      retryExec inner maxRetries = (.error (.raised .validation), 1)) := by
  refine ⟨?_, ?_, ?_⟩
  · intro k v hk hfail hok
    refine retryGo_succeeds inner k 0 maxRetries v (by omega) ?_ (by simpa using hok)
    intro i hi
    simpa using hfail i hi
  · intro hfail e he
    refine retryGo_exhausts inner maxRetries 0 ?_ e (by simpa using he)
    intro i hi
    simpa using hfail i hi
  · intro h0
    rw [retryExec, retryGo]
    simp [h0, InnerErr.nameIsValidation]

/-- An inner strategy failing on attempts 0 and 1 and succeeding from
attempt 2 on. -/
def retryInnerTwoFailures : Nat → Except InnerErr Nat := fun i =>
  if i < 2 then .error (.db i) else .ok 42

/-- An inner strategy failing on every attempt with a retryable error. -/
def retryInnerAlwaysFails : Nat → Except InnerErr Nat := fun i => .error (.db i)

/-- An inner strategy raising a ValidationError immediately. -/
def retryInnerRejectsInput : Nat → Except InnerErr Nat := fun _ =>
  .error .validation

/-- C6 witness: the three retry behaviours at concrete inner
strategies with `maxRetries = 3`: two failures then success gives the
success after 3 calls; constant failure gives a `QueryError` wrapping
the last error after 4 calls; an immediate ValidationError is re-raised
after 1 call. -/
theorem c6_retry_counts_witness :
    (2 < 3 ∧ retryInnerTwoFailures 2 = .ok 42 ∧
      retryExec retryInnerTwoFailures 3 = (.ok 42, 3)) ∧
    (retryInnerAlwaysFails 3 = .error (.db 3) ∧
      retryExec retryInnerAlwaysFails 3
        = (.error (.queryError (.db 3)), 4)) ∧
    (retryInnerRejectsInput 0 = .error .validation ∧
      retryExec retryInnerRejectsInput 3
        = (.error (.raised .validation), 1)) := by
  refine ⟨⟨by omega, rfl, ?_⟩, ⟨rfl, ?_⟩, ⟨rfl, ?_⟩⟩
  · refine (c6_retry_counts retryInnerTwoFailures 3).1 2 42 (by omega) ?_ rfl
    intro i hi
    exact ⟨.db i, by simp [retryInnerTwoFailures, hi], rfl⟩
  · exact (c6_retry_counts retryInnerAlwaysFails 3).2.1
      (fun i _ => ⟨.db i, rfl, rfl⟩) (.db 3) rfl
  · exact (c6_retry_counts retryInnerRejectsInput 3).2.2 rfl

/-! ## Claim C8: percentile computation agreement -/

theorem sortAsc_perm (l : List Nat) : (sortAsc l).Perm l :=
  List.perm_insertionSort _ _

theorem sortAsc_sorted (l : List Nat) : (sortAsc l).Sorted (· ≤ ·) :=
  List.sorted_insertionSort _ _

/-- Sorting identical multisets of samples yields identical sorted
sequences. -/
theorem sortAsc_eq_of_perm {l1 l2 : List Nat} (h : l1.Perm l2) :
    sortAsc l1 = sortAsc l2 :=
  List.eq_of_perm_of_sorted
    ((sortAsc_perm l1).trans (h.trans (sortAsc_perm l2).symm))
    (sortAsc_sorted l1) (sortAsc_sorted l2)

/-- The nearest-rank index is in bounds on a non-empty sample list for
any percentile below 100. -/
theorem pctIdx_lt {n p : Nat} (hn : 0 < n) (hp : p < 100) : pctIdx n p < n := by
  rw [pctIdx, Nat.div_lt_iff_lt_mul (by omega : (0 : Nat) < 100)]
  exact (mul_lt_mul_left hn).mpr hp

/-- In-bounds list lookup: the `Option`-valued index (`getSummary`'s
`sorted[i]`) agrees with the 0-defaulted one (`getMetrics`'s
`sorted[i] || 0`). -/
theorem getElemOpt_eq_some_getD :
    ∀ (l : List Nat) (i : Nat), i < l.length → l[i]? = some (l.getD i 0)
  | _ :: _, 0, _ => by simp
  | a :: l, i + 1, h => by
    simpa using getElemOpt_eq_some_getD l i (by simpa using h)

/-- `getSummary` on a non-empty history, fully evaluated. -/
theorem getSummary_nonempty (m : Mon) (h : m.queries ≠ []) :
    m.getSummary = some
      { totalQueries := m.queries.length
      , avgDuration := (((m.queries.map QRec.duration).sum : ℚ) /
          ((m.queries.map QRec.duration).length : ℚ))
      , p50 := (sortAsc (m.queries.map QRec.duration))[pctIdx
          (sortAsc (m.queries.map QRec.duration)).length 50]?
      , p95 := (sortAsc (m.queries.map QRec.duration))[pctIdx
          (sortAsc (m.queries.map QRec.duration)).length 95]?
      , p99 := (sortAsc (m.queries.map QRec.duration))[pctIdx
          (sortAsc (m.queries.map QRec.duration)).length 99]?
      , alertCount := m.alerts.length } := by
  rw [Mon.getSummary, if_neg (by simpa [List.length_eq_zero] using h)]

/-- C8: `PerformanceMonitor.getSummary` computes its p50/p95/p99 by the
same nearest-rank-on-sorted-samples function as
`MetricsDecorator.getMetrics` (index `⌊count × percentile⌋` into the
ascending sort): on identical sample multisets — the monitor's recorded
durations a permutation of the decorator's latency list — and a
non-empty history, the two produce identical percentile values. -/
theorem c8_percentiles_agree (met : Metrics) (mon : Mon)
    (hperm : met.latencies.Perm (mon.queries.map QRec.duration))
    (hne : mon.queries ≠ []) :
    ∃ s, mon.getSummary = some s ∧
      s.p50 = some met.getMetrics.p50 ∧
      s.p95 = some met.getMetrics.p95 ∧
      s.p99 = some met.getMetrics.p99 := by
  have hs : sortAsc met.latencies = sortAsc (mon.queries.map QRec.duration) :=
    sortAsc_eq_of_perm hperm
  have hpos : 0 < (sortAsc (mon.queries.map QRec.duration)).length := by
    rw [(sortAsc_perm _).length_eq, List.length_map]
    exact List.length_pos.mpr hne
  refine ⟨_, getSummary_nonempty mon hne, ?_, ?_, ?_⟩
  · simp only [Metrics.getMetrics, hs]
    exact getElemOpt_eq_some_getD _ _ (pctIdx_lt hpos (by omega : (50 : Nat) < 100))
  · simp only [Metrics.getMetrics, hs]
    exact getElemOpt_eq_some_getD _ _ (pctIdx_lt hpos (by omega : (95 : Nat) < 100))
  · simp only [Metrics.getMetrics, hs]
    exact getElemOpt_eq_some_getD _ _ (pctIdx_lt hpos (by omega : (99 : Nat) < 100))

/-- C8 witness: a decorator with latency list `[5]` and a monitor with
one recorded event of duration 5 hold the same sample multiset and
agree on all three percentiles. -/
theorem c8_percentiles_agree_witness :
    (⟨1, 1, 0, 5, [5]⟩ : Metrics).latencies.Perm
      ((⟨[], [⟨5, false, 0⟩], []⟩ : Mon).queries.map QRec.duration) ∧
    (⟨[], [⟨5, false, 0⟩], []⟩ : Mon).queries ≠ [] ∧
    (∃ s, Mon.getSummary ⟨[], [⟨5, false, 0⟩], []⟩ = some s ∧
      s.p50 = some (Metrics.getMetrics ⟨1, 1, 0, 5, [5]⟩).p50 ∧
      s.p95 = some (Metrics.getMetrics ⟨1, 1, 0, 5, [5]⟩).p95 ∧
      s.p99 = some (Metrics.getMetrics ⟨1, 1, 0, 5, [5]⟩).p99) :=
  ⟨List.Perm.refl _, by decide,
    c8_percentiles_agree ⟨1, 1, 0, 5, [5]⟩ ⟨[], [⟨5, false, 0⟩], []⟩
      (List.Perm.refl _) (by decide)⟩

end PgRedisBench
